import Mathlib

/-!
Verification of the timing utilities in src/timing_practice.cpp.

The program has two components: a scope-bound timer (struct Timing, lines
12-35) whose constructor reads a high resolution clock and whose destructor
reads it again and prints "function took <N> ms", and two overloads of a
generic wrapper timeit (lines 42-72 void, lines 74-110 non-void) that read
the clock, invoke the wrapped callable once, read the clock again and print
the same report line, the non-void overload returning the callable's result.

Shallow embedding choices:

* A World carries the state a run can observe: the current reading of the
  monotonic clock in nanoseconds (the libstdc++ representation of
  high_resolution_clock time points), a jitter oracle giving the
  non-negative extra time that has elapsed by the k-th clock query
  (scheduling and measurement overhead; jitter values are Nat, so the clock
  never runs backward), the number of clock queries made so far, and the
  list of text chunks written to standard output, in order.
* Each "std::cout << ... << std::endl" call appends one newline-terminated
  string to the output list (emitLine).
* std::this_thread::sleep_for advances the clock by at least the requested
  interval (the jitter oracle accounts for any excess at the next read).
* A C++ callable that may throw is a function from an argument and a World
  to an Except value paired with the resulting World: output already
  written survives an exception, as it does in C++.
* duration_cast<milliseconds> on the difference of two readings truncates
  toward zero; on integer nanoseconds that is Int.tdiv by 1000000.  The
  intermediate chrono duration<double> (duration<float> in Timing) is
  modelled exactly, since floating-point rounding is outside the embedding.
* C++ value categories (perfect forwarding of rvalue/lvalue arguments) have
  no observable counterpart here; an argument tuple is a single value of an
  arbitrary type, passed through unchanged.
-/

namespace TimingPractice

/-- The observable machine state: monotonic clock, clock-read jitter oracle,
number of clock reads made so far, and the standard-output transcript. -/
structure World where
  time : Int
  jitter : Nat → Nat
  reads : Nat
  output : List String
deriving Inhabited

/-- Model of std::chrono::high_resolution_clock::now() (used at lines 26,
30, 66, 68, 103 and 105 of the source): the reading is the current time
plus the non-negative jitter for this read; the clock state advances to the
returned reading, so readings never decrease. -/
def now (w : World) : Int × World :=
  let t : Int := w.time + (w.jitter w.reads : Int)
  (t, { w with time := t, reads := w.reads + 1 })

/-- Model of std::this_thread::sleep_for on a duration of d nanoseconds:
time advances by at least d (any excess is charged to later jitter). -/
def sleep_for (d : Nat) (w : World) : World :=
  { w with time := w.time + (d : Int) }

/-- Model of one "std::cout << s << std::endl" statement: append the string
followed by a line break to the output transcript. -/
def emitLine (s : String) (w : World) : World :=
  { w with output := w.output ++ [s ++ "\n"] }

/-- duration_cast<std::chrono::milliseconds> applied to a difference of two
clock readings in nanoseconds: integer division truncating toward zero. -/
def msOf (d : Int) : Int :=
  d.tdiv 1000000

/-- The report text printed at lines 33, 71 and 108 of the source, without
the terminating line break that emitLine adds. -/
def reportLine (n : Int) : String :=
  "function took " ++ toString n ++ " ms"

/-- One nanosecond-denominated second, the sleep interval of the three mock
database calls (std::chrono_literals 1s). -/
def oneSecond : Nat := 1000000000

/-- The scope timer of lines 12-35: the constructor stores a clock reading;
only that reading is observable state (the end and duration members are
written solely inside the destructor). -/
structure Timing where
  start : Int

/-- Timing::Timing (lines 25-27): capture the current clock reading as
start. -/
def Timing.init (w : World) : Timing × World :=
  let s := now w
  (⟨s.1⟩, s.2)

/-- Timing::~Timing (lines 29-34): capture a second reading, convert the
difference to milliseconds and print the report line. -/
def Timing.destruct (t : Timing) (w : World) : World :=
  let e := now w
  emitLine (reportLine (msOf (e.1 - t.start))) e.2

/-- A C++ callable taking an argument pack of type a, possibly throwing a
value of type e, and otherwise returning a value of type r.  Output written
before a throw is retained, as in C++. -/
abbrev Callable (a e r : Type) : Type :=
  a → World → Except e r × World

/-- The void overload of timeit (lines 42-72): read the clock, invoke the
callable once with the forwarded arguments, and if it returns normally read
the clock again and print the report; an exception from the callable
propagates before the second reading or the report happen. -/
def timeitVoid {a e : Type} (func : Callable a e Unit) (args : a) (w : World) :
    Except e Unit × World :=
  let s := now w
  match func args s.2 with
  | (Except.error exc, w2) => (Except.error exc, w2)
  | (Except.ok _, w2) =>
      let en := now w2
      (Except.ok (), emitLine (reportLine (msOf (en.1 - s.1))) en.2)

/-- The non-void overload of timeit (lines 74-110): read the clock, invoke
the callable once binding its result, and if it returns normally read the
clock again, print the report and return the result unchanged; an exception
from the callable propagates before the second reading or the report. -/
def timeit {a e r : Type} (func : Callable a e r) (args : a) (w : World) :
    Except e r × World :=
  let s := now w
  match func args s.2 with
  | (Except.error exc, w2) => (Except.error exc, w2)
  | (Except.ok res, w2) =>
      let en := now w2
      (Except.ok res, emitLine (reportLine (msOf (en.1 - s.1))) en.2)

/-- mockDatabaseCall (lines 112-119): a Timing instance at the top of the
body, two prints around a one second sleep; the Timing instance is
destroyed when the body ends. -/
def mockDatabaseCall (w : World) : World :=
  let p := Timing.init w
  let w1 := emitLine "Starting the mock database call" p.2
  let w2 := sleep_for oneSecond w1
  let w3 := emitLine "Ending the mock database call" w2
  Timing.destruct p.1 w3

/-- anotherMockDatabaseCall (lines 121-127): two prints around a one second
sleep, returning nothing; it never throws. -/
def anotherMockDatabaseCall (w : World) : World :=
  let w1 := emitLine "Starting the mock database call" w
  let w2 := sleep_for oneSecond w1
  emitLine "Ending the mock database call" w2

/-- yetAnotherMockDatabaseCall (lines 129-135): two prints around a one
second sleep, returning the integer 10; it never throws. -/
def yetAnotherMockDatabaseCall (w : World) : Int × World :=
  let w1 := emitLine "Starting the mock database call" w
  let w2 := sleep_for oneSecond w1
  (10, emitLine "Ending the mock database call" w2)

/-- Lift a zero-argument, non-throwing, value-returning function into the
Callable shape the timeit overloads expect. -/
def liftCall0 {e r : Type} (f : World → r × World) : Callable Unit e r :=
  fun _ w => let p := f w; (Except.ok p.1, p.2)

/-- Lift a zero-argument, non-throwing, void function into the Callable
shape the void timeit overload expects. -/
def liftCallV {e : Type} (f : World → World) : Callable Unit e Unit :=
  fun _ w => (Except.ok (), f w)

/-- main (lines 137-143): the Timing demo call, then timeit on the void
mock, then timeit on the value-returning mock. -/
def mainProgram (w : World) : World :=
  let w1 := mockDatabaseCall w
  let p2 := timeitVoid (liftCallV (e := Unit) anotherMockDatabaseCall) () w1
  let p3 := timeit (liftCall0 (e := Unit) yetAnotherMockDatabaseCall) () p2.2
  p3.2

/-- A callable never moves the monotonic clock backward.  Every callable
built from the primitives of this embedding satisfies it. -/
def TimeMono {a e r : Type} (f : Callable a e r) : Prop :=
  ∀ (x : a) (w : World), w.time ≤ (f x w).2.time

/-- A pure state transformer never moves the monotonic clock backward. -/
def WTimeMono (f : World → World) : Prop :=
  ∀ w : World, w.time ≤ (f w).time

/-- A pure state transformer only appends to the output transcript. -/
def AppendOnly (f : World → World) : Prop :=
  ∀ w : World, ∃ l : List String, (f w).output = w.output ++ l

/-- Two Timing instances in nested scopes, with body f run in the outer
scope before the inner scope opens and body g run in the inner scope; C++
destroys automatic objects in reverse construction order on scope exit, so
the inner instance is destroyed before the outer one. -/
def nestedScopes (f g : World → World) (w : World) : World :=
  let po := Timing.init w
  let w1 := f po.2
  let pi := Timing.init w1
  let w2 := g pi.2
  let w3 := Timing.destruct pi.1 w2
  Timing.destruct po.1 w3

/-- An all-zero initial world used to instantiate theorems at a concrete
input. -/
def w0 : World :=
  { time := 0, jitter := fun _ => 0, reads := 0, output := [] }

/-! Helper lemmas shared by the claim theorems. -/

/-- A clock reading is never below the current time. -/
lemma now_time_le (w : World) : w.time ≤ (now w).1 :=
  le_add_of_nonneg_right (Int.natCast_nonneg _)

/-- After a read, the clock state equals the reading just returned. -/
lemma now_time_eq (w : World) : (now w).2.time = (now w).1 := rfl

/-- Reading the clock writes nothing. -/
lemma now_output (w : World) : (now w).2.output = w.output := rfl

/-- Millisecond truncation of a non-negative duration is non-negative. -/
lemma msOf_nonneg {d : Int} (h : 0 ≤ d) : 0 ≤ msOf d :=
  Int.tdiv_nonneg h (by norm_num)

/-- Millisecond truncation is monotone on non-negative durations. -/
lemma msOf_mono {d1 d2 : Int} (h0 : 0 ≤ d1) (h : d1 ≤ d2) : msOf d1 ≤ msOf d2 := by
  unfold msOf
  rw [Int.tdiv_eq_ediv h0 (by norm_num), Int.tdiv_eq_ediv (le_trans h0 h) (by norm_num)]
  exact Int.ediv_le_ediv (by norm_num) h

/-- C1: for every callable with a non-void return type and matching
arguments, the non-void timeit overload performs one clock read, one
invocation of the callable with the arguments passed through, one more
clock read and one report line, and returns exactly the value the callable
produced, unchanged.  The right-hand side contains exactly one application
of the callable, so the callable runs exactly once and the returned value
is its value. -/
theorem timeit_returns_callable_value {a e r : Type} (func : Callable a e r)
    (args : a) (w : World) (res : r) (w' : World)
    (hf : func args (now w).2 = (Except.ok res, w')) :
    timeit func args w =
      (Except.ok res,
        emitLine (reportLine (msOf ((now w').1 - (now w).1))) (now w').2) := by
  simp only [timeit, hf]

/-- C1 witness: wrapping yetAnotherMockDatabaseCall, which sleeps one
second and returns the integer 10, makes the wrapper call evaluate to 10,
with the two mock print lines followed by exactly one report line. -/
theorem timeit_returns_callable_value_witness :
    (timeit (liftCall0 (e := Unit) yetAnotherMockDatabaseCall) () w0).1 =
      Except.ok 10 ∧
    (timeit (liftCall0 (e := Unit) yetAnotherMockDatabaseCall) () w0).2.output =
      ["Starting the mock database call\n", "Ending the mock database call\n",
       "function took 1000 ms\n"] := by
  have h := timeit_returns_callable_value
    (liftCall0 (e := Unit) yetAnotherMockDatabaseCall) () w0 10
    { time := (oneSecond : Int), jitter := w0.jitter, reads := 1,
      output := ["Starting the mock database call\n",
                 "Ending the mock database call\n"] } rfl
  rw [h]
  exact ⟨rfl, rfl⟩

/-- C2: if the wrapped callable throws, either timeit overload propagates
that exact exception with the world exactly as the callable left it: in
particular no report line is appended for that invocation (the output after
the wrapper equals the output after the failed callable), and the wrapper
performs no second clock read. -/
theorem timeit_propagates_error {a e r : Type} (func : Callable a e r)
    (funcV : Callable a e Unit) (args : a) (w : World) (exc : e)
    (w' w'' : World)
    (hf : func args (now w).2 = (Except.error exc, w'))
    (hfv : funcV args (now w).2 = (Except.error exc, w'')) :
    timeit func args w = (Except.error exc, w') ∧
    timeitVoid funcV args w = (Except.error exc, w'') ∧
    (timeit func args w).2.output = w'.output ∧
    (timeitVoid funcV args w).2.output = w''.output := by
  refine ⟨?_, ?_, ?_, ?_⟩ <;> simp only [timeit, timeitVoid, hf, hfv]

/-- C2 witness: a callable that prints one line and then throws the string
"boom" has that exact value propagated by both overloads, and the output
holds only the callable's own line, no report line. -/
theorem timeit_propagates_error_witness :
    timeit (fun (_ : Unit) (v : World) =>
        ((Except.error "boom" : Except String Int), emitLine "halfway" v)) () w0 =
      (Except.error "boom", emitLine "halfway" (now w0).2) ∧
    timeitVoid (fun (_ : Unit) (v : World) =>
        ((Except.error "boom" : Except String Unit), emitLine "halfway" v)) () w0 =
      (Except.error "boom", emitLine "halfway" (now w0).2) ∧
    (timeit (fun (_ : Unit) (v : World) =>
        ((Except.error "boom" : Except String Int), emitLine "halfway" v)) () w0).2.output =
      ["halfway\n"] := by
  have h := timeit_propagates_error
    (fun (_ : Unit) (v : World) =>
      ((Except.error "boom" : Except String Int), emitLine "halfway" v))
    (fun (_ : Unit) (v : World) =>
      ((Except.error "boom" : Except String Unit), emitLine "halfway" v))
    () w0 "boom" (emitLine "halfway" (now w0).2) (emitLine "halfway" (now w0).2)
    rfl rfl
  exact ⟨h.1, h.2.1, by rw [h.1]; rfl⟩

/-- C3: a Timing instance captures the current clock reading as start at
construction, writes nothing at construction, and at destruction performs
exactly one more clock read and appends exactly one line, the report of the
millisecond conversion of the difference of the two readings. -/
theorem timing_scope_report (t : Timing) (w : World) :
    (Timing.init w).1.start = (now w).1 ∧
    (Timing.init w).2.output = w.output ∧
    (Timing.init w).2.reads = w.reads + 1 ∧
    Timing.destruct t w =
      emitLine (reportLine (msOf ((now w).1 - t.start))) (now w).2 ∧
    (Timing.destruct t w).output =
      w.output ++ [reportLine (msOf ((now w).1 - t.start)) ++ "\n"] := by
  exact ⟨rfl, rfl, rfl, rfl, rfl⟩

/-- C4: for a void callable that returns normally, the void timeit overload
produces the unit value (the embedding of no result), after one invocation
of the callable and one appended report line. -/
theorem timeitVoid_no_result {a e : Type} (func : Callable a e Unit)
    (args : a) (w : World) (w' : World)
    (hf : func args (now w).2 = (Except.ok (), w')) :
    timeitVoid func args w =
      (Except.ok (),
        emitLine (reportLine (msOf ((now w').1 - (now w).1))) (now w').2) ∧
    (timeitVoid func args w).2.output =
      w'.output ++ [reportLine (msOf ((now w').1 - (now w).1)) ++ "\n"] := by
  constructor
  · simp only [timeitVoid, hf]
  · simp only [timeitVoid, hf]
    rfl

/-- C4 witness: wrapping anotherMockDatabaseCall, which sleeps one second
and returns nothing, yields the unit value and the two mock print lines
followed by exactly one report line. -/
theorem timeitVoid_no_result_witness :
    timeitVoid (liftCallV (e := Unit) anotherMockDatabaseCall) () w0 =
      (Except.ok (),
        { time := (oneSecond : Int), jitter := w0.jitter, reads := 2,
          output := ["Starting the mock database call\n",
                     "Ending the mock database call\n",
                     "function took 1000 ms\n"] }) := by
  have h := timeitVoid_no_result (liftCallV (e := Unit) anotherMockDatabaseCall) () w0
    { time := (oneSecond : Int), jitter := w0.jitter, reads := 1,
      output := ["Starting the mock database call\n",
                 "Ending the mock database call\n"] } rfl
  rw [h.1]
  rfl

/-- The output written by a Timing destructor: the previous output plus one
report line. -/
lemma destruct_output (t : Timing) (w : World) :
    (Timing.destruct t w).output =
      w.output ++ [reportLine (msOf ((now w).1 - t.start)) ++ "\n"] := rfl

/-- The clock state after a Timing destructor equals the reading it took. -/
lemma destruct_time (t : Timing) (w : World) :
    (Timing.destruct t w).time = (now w).1 := rfl

/-- A Timing constructor writes nothing. -/
lemma init_output (w : World) : (Timing.init w).2.output = w.output := rfl

/-- The clock state after a Timing constructor equals the reading it took. -/
lemma init_time (w : World) : (Timing.init w).2.time = (now w).1 := rfl

/-- The start member stores the reading taken at construction. -/
lemma init_start (w : World) : (Timing.init w).1.start = (now w).1 := rfl

/-- C5: every report line written by the scope timer or by either timeit
overload is exactly the string "function took ", the decimal integer, and
" ms", followed by a line break; and the integer is the duration truncated
toward zero to whole milliseconds, not rounded: for a non-negative duration
d nanoseconds the printed value m satisfies 1000000 * m ≤ d <
1000000 * (m + 1), and negating a duration negates the printed value
(truncation toward zero rather than flooring). -/
theorem report_line_format {a e r : Type} (func : Callable a e r)
    (funcV : Callable a e Unit) (args : a) (t : Timing) (w : World)
    (res : r) (w' w'' : World)
    (hf : func args (now w).2 = (Except.ok res, w'))
    (hfv : funcV args (now w).2 = (Except.ok (), w'')) :
    (Timing.destruct t w).output =
      w.output ++
        ["function took " ++ toString (msOf ((now w).1 - t.start)) ++ " ms" ++ "\n"] ∧
    (timeit func args w).2.output =
      w'.output ++
        ["function took " ++ toString (msOf ((now w').1 - (now w).1)) ++ " ms" ++ "\n"] ∧
    (timeitVoid funcV args w).2.output =
      w''.output ++
        ["function took " ++ toString (msOf ((now w'').1 - (now w).1)) ++ " ms" ++ "\n"] ∧
    (∀ d : Int, 0 ≤ d → 1000000 * msOf d ≤ d ∧ d < 1000000 * (msOf d + 1)) ∧
    (∀ d : Int, msOf (-d) = -msOf d) := by
  refine ⟨rfl, ?_, ?_, ?_, ?_⟩
  · simp only [timeit, hf]
    rfl
  · simp only [timeitVoid, hfv]
    rfl
  · intro d hd
    have he : msOf d = d / 1000000 := Int.tdiv_eq_ediv hd (by norm_num)
    constructor
    · rw [he, mul_comm]
      exact Int.ediv_mul_le d (by norm_num)
    · rw [he, mul_comm]
      exact Int.lt_ediv_add_one_mul_self d (by norm_num)
  · intro d
    exact Int.neg_tdiv d 1000000

/-- C5 witness: concrete instances of the format and truncation facts, at a
zero-start timer on the all-zero world, the two wrapped mocks, and the
duration 1234567 ns, whose printed value 1 satisfies the truncation
bounds. -/
theorem report_line_format_witness :
    (Timing.destruct ⟨0⟩ w0).output =
      ["function took " ++ toString (0 : Int) ++ " ms" ++ "\n"] ∧
    (timeit (liftCall0 (e := Unit) yetAnotherMockDatabaseCall) () w0).2.output =
      ["Starting the mock database call\n", "Ending the mock database call\n",
       "function took " ++ toString (1000 : Int) ++ " ms" ++ "\n"] ∧
    1000000 * msOf 1234567 ≤ 1234567 ∧ (1234567 : Int) < 1000000 * (msOf 1234567 + 1) := by
  have h := report_line_format
    (liftCall0 (e := Unit) yetAnotherMockDatabaseCall)
    (liftCallV (e := Unit) anotherMockDatabaseCall) () ⟨0⟩ w0 10
    { time := (oneSecond : Int), jitter := w0.jitter, reads := 1,
      output := ["Starting the mock database call\n",
                 "Ending the mock database call\n"] }
    { time := (oneSecond : Int), jitter := w0.jitter, reads := 1,
      output := ["Starting the mock database call\n",
                 "Ending the mock database call\n"] }
    rfl rfl
  have hb := h.2.2.2.1 1234567 (by norm_num)
  refine ⟨?_, ?_, hb.1, hb.2⟩
  · rw [h.1]
    rfl
  · rw [h.2.1]
    rfl

/-- Every callable of the embedding built by lifting the value-returning
mock keeps the clock monotone. -/
lemma yet_timeMono : TimeMono (liftCall0 (e := Unit) yetAnotherMockDatabaseCall) := by
  intro x v
  simp only [liftCall0, yetAnotherMockDatabaseCall, emitLine, sleep_for, oneSecond]
  omega

/-- The lifted void mock keeps the clock monotone. -/
lemma another_timeMono : TimeMono (liftCallV (e := Unit) anotherMockDatabaseCall) := by
  intro x v
  simp only [liftCallV, anotherMockDatabaseCall, emitLine, sleep_for, oneSecond]
  omega

/-- C6: clock readings never decrease (each reading is at least the current
clock state, and the state advances to the reading), and consequently every
report line written by the scope timer or by either timeit overload around
a clock-monotone callable carries a non-negative number of milliseconds. -/
theorem reported_duration_nonneg {a e r : Type} (func : Callable a e r)
    (funcV : Callable a e Unit) (args : a) (t : Timing) (w : World)
    (res : r) (w' w'' : World)
    (ht : t.start ≤ w.time)
    (hm : TimeMono func) (hmv : TimeMono funcV)
    (hf : func args (now w).2 = (Except.ok res, w'))
    (hfv : funcV args (now w).2 = (Except.ok (), w'')) :
    (∀ v : World, v.time ≤ (now v).1 ∧ (now v).2.time = (now v).1) ∧
    (∃ m : Int, 0 ≤ m ∧
      (Timing.destruct t w).output = w.output ++ [reportLine m ++ "\n"]) ∧
    (∃ m : Int, 0 ≤ m ∧
      (timeit func args w).2.output = w'.output ++ [reportLine m ++ "\n"]) ∧
    (∃ m : Int, 0 ≤ m ∧
      (timeitVoid funcV args w).2.output = w''.output ++ [reportLine m ++ "\n"]) := by
  refine ⟨fun v => ⟨now_time_le v, rfl⟩, ?_, ?_, ?_⟩
  · refine ⟨msOf ((now w).1 - t.start), msOf_nonneg ?_, destruct_output t w⟩
    have h1 := now_time_le w
    omega
  · have h1 : (now w).1 ≤ w'.time := by
      have h2 := hm args (now w).2
      rw [hf] at h2
      exact h2
    refine ⟨msOf ((now w').1 - (now w).1), msOf_nonneg ?_, ?_⟩
    · have h3 := now_time_le w'
      omega
    · simp only [timeit, hf]
      rfl
  · have h1 : (now w).1 ≤ w''.time := by
      have h2 := hmv args (now w).2
      rw [hfv] at h2
      exact h2
    refine ⟨msOf ((now w'').1 - (now w).1), msOf_nonneg ?_, ?_⟩
    · have h3 := now_time_le w''
      omega
    · simp only [timeitVoid, hfv]
      rfl

/-- C6 witness: at the all-zero world with the two wrapped mocks and a
zero-start timer, all three report lines carry a non-negative value. -/
theorem reported_duration_nonneg_witness :
    (∃ m : Int, 0 ≤ m ∧
      (Timing.destruct ⟨0⟩ w0).output = w0.output ++ [reportLine m ++ "\n"]) ∧
    (∃ m : Int, 0 ≤ m ∧
      (timeit (liftCall0 (e := Unit) yetAnotherMockDatabaseCall) () w0).2.output =
        ["Starting the mock database call\n", "Ending the mock database call\n"] ++
          [reportLine m ++ "\n"]) := by
  have h := reported_duration_nonneg
    (liftCall0 (e := Unit) yetAnotherMockDatabaseCall)
    (liftCallV (e := Unit) anotherMockDatabaseCall) () ⟨0⟩ w0 10
    { time := (oneSecond : Int), jitter := w0.jitter, reads := 1,
      output := ["Starting the mock database call\n",
                 "Ending the mock database call\n"] }
    { time := (oneSecond : Int), jitter := w0.jitter, reads := 1,
      output := ["Starting the mock database call\n",
                 "Ending the mock database call\n"] }
    (le_refl 0) yet_timeMono another_timeMono rfl rfl
  exact ⟨h.2.1, h.2.2.1⟩

/-- C8: with two Timing instances in nested scopes, the inner instance is
destroyed first, so the transcript after both scopes close is the previous
output, the outer body's lines, the inner body's lines, then the inner
report strictly before the outer report; and since the inner measurement
window lies inside the outer one, the inner value is non-negative and at
most the outer value: each instance times only its own scope. -/
theorem nested_scopes_inner_first (f g : World → World) (w : World)
    (haf : AppendOnly f) (hag : AppendOnly g)
    (hmf : WTimeMono f) (hmg : WTimeMono g) :
    ∃ (lf lg : List String) (mi mo : Int),
      (nestedScopes f g w).output =
        w.output ++ lf ++ lg ++ [reportLine mi ++ "\n", reportLine mo ++ "\n"] ∧
      0 ≤ mi ∧ mi ≤ mo := by
  obtain ⟨lf, hlf⟩ := haf (Timing.init w).2
  obtain ⟨lg, hlg⟩ := hag (Timing.init (f (Timing.init w).2)).2
  have hso : (Timing.init w).1.start ≤ (now (f (Timing.init w).2)).1 := by
    have h1 := hmf (Timing.init w).2
    have h2 := now_time_le (f (Timing.init w).2)
    rw [init_start]
    rw [init_time] at h1
    omega
  have hsi :
      (Timing.init (f (Timing.init w).2)).1.start ≤
        (now (g (Timing.init (f (Timing.init w).2)).2)).1 := by
    have h1 := hmg (Timing.init (f (Timing.init w).2)).2
    have h2 := now_time_le (g (Timing.init (f (Timing.init w).2)).2)
    rw [init_start]
    rw [init_time] at h1
    omega
  have hei :
      (now (g (Timing.init (f (Timing.init w).2)).2)).1 ≤
        (now (Timing.destruct (Timing.init (f (Timing.init w).2)).1
          (g (Timing.init (f (Timing.init w).2)).2))).1 := by
    have h1 := now_time_le (Timing.destruct (Timing.init (f (Timing.init w).2)).1
      (g (Timing.init (f (Timing.init w).2)).2))
    rw [destruct_time] at h1
    exact h1
  have hd : (Timing.init (f (Timing.init w).2)).1.start =
      (now (f (Timing.init w).2)).1 := init_start _
  refine ⟨lf, lg,
    msOf ((now (g (Timing.init (f (Timing.init w).2)).2)).1 -
      (Timing.init (f (Timing.init w).2)).1.start),
    msOf ((now (Timing.destruct (Timing.init (f (Timing.init w).2)).1
      (g (Timing.init (f (Timing.init w).2)).2))).1 - (Timing.init w).1.start),
    ?_, ?_, ?_⟩
  · simp only [nestedScopes]
    rw [destruct_output, destruct_output, hlg, init_output, hlf, init_output]
    simp [List.append_assoc]
  · exact msOf_nonneg (by omega)
  · exact msOf_mono (by omega) (by omega)

/-- C8 witness: two nested Timing instances around empty bodies on the
all-zero world report inner first, with a non-negative inner value at most
the outer value. -/
theorem nested_scopes_inner_first_witness :
    ∃ (lf lg : List String) (mi mo : Int),
      (nestedScopes id id w0).output =
        w0.output ++ lf ++ lg ++ [reportLine mi ++ "\n", reportLine mo ++ "\n"] ∧
      0 ≤ mi ∧ mi ≤ mo :=
  nested_scopes_inner_first id id w0
    (fun v => ⟨[], by simp⟩) (fun v => ⟨[], by simp⟩)
    (fun v => le_refl _) (fun v => le_refl _)

/-- The lifted value-returning mock advances the clock by at least its one
second sleep. -/
lemma yet_advance (x : Unit) (v : World) :
    v.time + (oneSecond : Int) ≤
      ((liftCall0 (e := Unit) yetAnotherMockDatabaseCall) x v).2.time := by
  simp only [liftCall0, yetAnotherMockDatabaseCall, emitLine, sleep_for]
  omega

/-- The lifted void mock advances the clock by at least its one second
sleep. -/
lemma another_advance (x : Unit) (v : World) :
    v.time + (oneSecond : Int) ≤
      ((liftCallV (e := Unit) anotherMockDatabaseCall) x v).2.time := by
  simp only [liftCallV, anotherMockDatabaseCall, emitLine, sleep_for]
  omega

/-- C9: if the wrapped callable always advances the clock by at least T
nanoseconds (as a callable sleeping for T does), then the value in the
report line either timeit overload writes is at least T truncated to
milliseconds, never less. -/
theorem timeit_sleep_lower_bound {a e r : Type} (T : Nat)
    (func : Callable a e r) (funcV : Callable a e Unit) (args : a)
    (w : World) (res : r) (w' w'' : World)
    (hTf : ∀ (x : a) (v : World), v.time + (T : Int) ≤ (func x v).2.time)
    (hTfv : ∀ (x : a) (v : World), v.time + (T : Int) ≤ (funcV x v).2.time)
    (hf : func args (now w).2 = (Except.ok res, w'))
    (hfv : funcV args (now w).2 = (Except.ok (), w'')) :
    (∃ m : Int, msOf (T : Int) ≤ m ∧
      (timeit func args w).2.output = w'.output ++ [reportLine m ++ "\n"]) ∧
    (∃ m : Int, msOf (T : Int) ≤ m ∧
      (timeitVoid funcV args w).2.output = w''.output ++ [reportLine m ++ "\n"]) := by
  constructor
  · have h1 : (now w).1 + (T : Int) ≤ w'.time := by
      have h2 := hTf args (now w).2
      rw [hf] at h2
      exact h2
    have h3 := now_time_le w'
    refine ⟨msOf ((now w').1 - (now w).1),
      msOf_mono (Int.natCast_nonneg T) (by omega), ?_⟩
    simp only [timeit, hf]
    rfl
  · have h1 : (now w).1 + (T : Int) ≤ w''.time := by
      have h2 := hTfv args (now w).2
      rw [hfv] at h2
      exact h2
    have h3 := now_time_le w''
    refine ⟨msOf ((now w'').1 - (now w).1),
      msOf_mono (Int.natCast_nonneg T) (by omega), ?_⟩
    simp only [timeitVoid, hfv]
    rfl

/-- C9 witness: wrapping the mocks that sleep one second, each overload
writes a report line whose value is at least 1000 ms. -/
theorem timeit_sleep_lower_bound_witness :
    (∃ m : Int, 1000 ≤ m ∧
      (timeit (liftCall0 (e := Unit) yetAnotherMockDatabaseCall) () w0).2.output =
        ["Starting the mock database call\n", "Ending the mock database call\n"] ++
          [reportLine m ++ "\n"]) ∧
    (∃ m : Int, 1000 ≤ m ∧
      (timeitVoid (liftCallV (e := Unit) anotherMockDatabaseCall) () w0).2.output =
        ["Starting the mock database call\n", "Ending the mock database call\n"] ++
          [reportLine m ++ "\n"]) := by
  have h := timeit_sleep_lower_bound oneSecond
    (liftCall0 (e := Unit) yetAnotherMockDatabaseCall)
    (liftCallV (e := Unit) anotherMockDatabaseCall) () w0 10
    { time := (oneSecond : Int), jitter := w0.jitter, reads := 1,
      output := ["Starting the mock database call\n",
                 "Ending the mock database call\n"] }
    { time := (oneSecond : Int), jitter := w0.jitter, reads := 1,
      output := ["Starting the mock database call\n",
                 "Ending the mock database call\n"] }
    yet_advance another_advance rfl rfl
  have hms : msOf ((oneSecond : Nat) : Int) = 1000 := by decide
  rw [hms] at h
  exact h

/-- C10: the value either branch of the non-void wrapper returns is decided
entirely by the wrapped callable: if the callable's result value does not
depend on the world (clock state, jitter, transcript), then the wrapper's
result value is identical across any two starting worlds, whatever
durations their clocks produce. -/
theorem timeit_value_clock_independent {a e r : Type} (func : Callable a e r)
    (args : a)
    (hval : ∀ v1 v2 : World, (func args v1).1 = (func args v2).1)
    (w1 w2 : World) :
    (timeit func args w1).1 = (timeit func args w2).1 := by
  have h := hval (now w1).2 (now w2).2
  simp only [timeit]
  rcases h1 : func args (now w1).2 with ⟨res1, v1⟩
  rcases h2 : func args (now w2).2 with ⟨res2, v2⟩
  rw [h1, h2] at h
  simp only at h
  cases res1 <;> cases res2 <;> simp_all

/-- C10 witness: the wrapper around the value-returning mock yields the
same value 10 from the all-zero world and from a world with non-zero time,
jitter and prior output. -/
theorem timeit_value_clock_independent_witness :
    (timeit (liftCall0 (e := Unit) yetAnotherMockDatabaseCall) () w0).1 =
      (timeit (liftCall0 (e := Unit) yetAnotherMockDatabaseCall) ()
        { time := 5, jitter := fun k => k + 1, reads := 3, output := ["x\n"] }).1 :=
  timeit_value_clock_independent
    (liftCall0 (e := Unit) yetAnotherMockDatabaseCall) ()
    (fun _ _ => rfl) w0
    { time := 5, jitter := fun k => k + 1, reads := 3, output := ["x\n"] }

end TimingPractice
